import Mathlib

/-!
Verification development for the claudio-signaling-server repository.

The repository contains several near-duplicate variants of the same
socket.io signaling server.  We embed the two variants the claims cite:

* `part_000` (the minimal ESM server, `rooms : Map<roomId, Set<socketId>>`,
  no leave-on-rejoin, unchecked `signal` forwarding, generic `roomcast`) —
  embedded with the `A` suffix;
* `part_003` (the "broadcast + directed signaling" server,
  `rooms : Map<roomId, Map<socketId, user>>`, leave-previous-room on
  rejoin, membership-checked directed `signal`, 240-char `roomcast`) —
  embedded with the `B` suffix;
* `server.js` (the class-based server with an HTTP `POST /api/rooms`
  endpoint) — embedded with the `S` suffix;
* `diagnostics/selftest.js` (`runSelfTest`) — embedded as a control-flow
  skeleton whose awaited asynchronous outcomes are inputs.

Modelling conventions (shallow embedding of the JavaScript):

* JS strings used only as opaque tokens (socket ids, user names, event
  names) are Lean `String`s; SDP text and chat messages, which undergo
  character-level surgery, are `List Char` (`Str`).  JS `slice(0, n)` is
  `List.take n` / `strTake n`, `toUpperCase` is `Char.toUpper` mapped
  over the characters (ASCII; the inputs of interest are ASCII).
* A JS `Map` is an insertion-ordered association list; `Map.set` replaces
  in place or appends, `Map.delete` removes the (unique) entry.  A JS
  `Set` of socket ids is a duplicate-free list in insertion order.
* JS multiline regexes are modelled line-wise: a "line" is a maximal run
  of characters none of which is an ECMAScript line terminator (`'\n'`,
  `'\r'`, U+2028, U+2029), since multiline `^`/`$` anchor at every
  terminator and `.` matches no terminator.  `splitSegs` keeps the
  terminators so the regex-replace steps reconstruct the exact original
  text around the rewritten line.  A plain-string
  `String.prototype.replace` is `replaceFirst`, replacing the first
  substring occurrence; `String.prototype.includes` is `containsStr`.
* The socket.io adapter: every connected socket is in its personal room
  (named by its own id); `io.to(x)` resolves to the members of adapter
  room `x`.  Handlers return the updated state together with the list of
  emissions (`recipients`, event name, payload).
-/

/-! ## Characters and strings -/

abbrev Str := List Char

def strToUpper (s : String) : String := ⟨s.data.map Char.toUpper⟩

def strTake (n : Nat) (s : String) : String := ⟨s.data.take n⟩

/-- JS `x || d` for strings: the empty string is falsy. -/
def jsOr (s d : String) : String := if s = "" then d else s

/-- `String(roomId || "").toUpperCase().slice(0, 12)` — the room-id
normalization shared by the `join-room` handlers.  No `trim` occurs. -/
def normRoomId (r : String) : String := strTake 12 (strToUpper r)

/-! ## Association lists (JS `Map`) and membership lists (JS `Set`) -/

def alookup {α : Type} : List (String × α) → String → Option α
  | [], _ => none
  | (k', v') :: t, k => if k' = k then some v' else alookup t k

/-- `Map.set`: replace the (unique) entry in place, else append. -/
def aset {α : Type} : List (String × α) → String → α → List (String × α)
  | [], k, v => [(k, v)]
  | (k', v') :: t, k, v => if k' = k then (k, v) :: t else (k', v') :: aset t k v

/-- `Map.delete`: remove the (unique) entry with the given key. -/
def adel {α : Type} : List (String × α) → String → List (String × α)
  | [], _ => []
  | (k', v') :: t, k => if k' = k then t else (k', v') :: adel t k

/-! ## Line and substring machinery for the SDP normalizer

`splitCh` is JS `String.prototype.split` with a single-character
separator; `joinCh` is `Array.prototype.flatten`.  `containsStr` is
`String.prototype.includes` and `replaceFirst` is the plain-string form
of `String.prototype.replace` (first substring occurrence only). -/

def splitCh (sep : Char) : Str → List Str
  | [] => [[]]
  | c :: t =>
    if c = sep then [] :: splitCh sep t
    else
      match splitCh sep t with
      | [] => [[c]]
      | l :: ls => (c :: l) :: ls

def joinCh (sep : Char) : List Str → Str
  | [] => []
  | [l] => l
  | l :: l' :: ls => l ++ sep :: joinCh sep (l' :: ls)

/-- The ECMAScript line terminators `\n`, `\r`, U+2028, U+2029: in a
multiline regex `^` matches right after any of them, `$` right before
any of them, and `.` matches none of them. -/
def isLineTerm (c : Char) : Bool :=
  c = '\n' || c = '\r' || c = '\u2028' || c = '\u2029'

/-- The lines of a text in the sense of a multiline regex: the maximal
runs of non-terminator characters.  A `"\r\n"` pair encloses an empty
line, which none of the patterns used here can match. -/
def jsLines : Str → List Str
  | [] => [[]]
  | c :: t =>
    if isLineTerm c then [] :: jsLines t
    else
      match jsLines t with
      | [] => [[c]]
      | l :: ls => (c :: l) :: ls

/-- The same decomposition keeping the terminators: the list of
(line, following terminator) pairs, then the trailing line. -/
def splitSegs : Str → List (Str × Char) × Str
  | [] => ([], [])
  | c :: t =>
    if isLineTerm c then (([], c) :: (splitSegs t).1, (splitSegs t).2)
    else
      match splitSegs t with
      | ([], last) => ([], c :: last)
      | (p :: ps, last) => ((c :: p.1, p.2) :: ps, last)

/-- Reassemble a terminator-keeping decomposition. -/
def joinPre : List (Str × Char) → Str → Str
  | [], last => last
  | p :: ps, last => p.1 ++ p.2 :: joinPre ps last

def containsStr (pat : Str) : Str → Bool
  | [] => pat.isEmpty
  | c :: t => pat.isPrefixOf (c :: t) || containsStr pat t

def replaceFirst (pat rep : Str) : Str → Str
  | [] => if pat.isEmpty then rep else []
  | c :: t =>
    if pat.isPrefixOf (c :: t) then rep ++ (c :: t).drop pat.length
    else c :: replaceFirst pat rep t

/-! ## The SDP normalizer `preferOpus` (part_000 lines 27–46)

The two multiline regexes are modelled line-wise: `/^m=audio .+$/m`
matches a line starting with `"m=audio "` followed by at least one more
character; `/^a=rtpmap:(\d+)\s+opus\/48000\/2$/m` is parsed by
`parseRtpmap` (greedy `\d+` then `\s+` then the literal, which is the
unique parse because digits, whitespace and `'o'` are disjoint). -/

def isAudioMLine (l : Str) : Bool :=
  ("m=audio ".toList).isPrefixOf l && decide (8 < l.length)

def firstAudioLine (s : Str) : Option Str := (jsLines s).find? isAudioMLine

/-- JS `\s` restricted to characters that can occur inside a line (the
line terminators, which `\s` also matches, are consumed by the line
structure; a `\s+` run that crosses a terminator and continues on a
later line is not modelled — the literal `opus/48000/2` cannot overlap a
line the other patterns use, so such a run can only select a payload
type where this model reports none and never changes which m-line is
rewritten): space, tab, vertical tab, form feed, NBSP, BOM and the
Unicode space separators. -/
def isJsSpace (c : Char) : Bool :=
  c = ' ' || c = '\t' || c = '\x0b' || c = '\x0c' || c = '\u00a0' || c = '\ufeff' ||
  c = '\u1680' || ('\u2000' ≤ c && c ≤ '\u200a') || c = '\u202f' || c = '\u205f' ||
  c = '\u3000'

def parseRtpmap (l : Str) : Option Str :=
  if ("a=rtpmap:".toList).isPrefixOf l then
    let rest := l.drop 9
    let ds := rest.takeWhile Char.isDigit
    let rest1 := rest.dropWhile Char.isDigit
    let ws := rest1.takeWhile isJsSpace
    let rest2 := rest1.dropWhile isJsSpace
    if ds ≠ [] ∧ ws ≠ [] ∧ rest2 = "opus/48000/2".toList then some ds else none
  else none

def firstOpusPt (s : Str) : Option Str := (jsLines s).findSome? parseRtpmap

/-- `[parts[0], parts[1], parts[2], pt, ...parts.slice(3).filter(x => x !== pt)].flatten(" ")`;
a missing `parts[i]` is JS `undefined`, which `join` renders as `""`. -/
def reorderMLine (m pt : Str) : Str :=
  let parts := splitCh ' ' m
  joinCh ' '
    ([parts.getD 0 [], parts.getD 1 [], parts.getD 2 [], pt] ++
      (parts.drop 3).filter (fun x => x ≠ pt))

def fmtpParams : Str := " minptime=10;useinbandfec=1;cbr=1;stereo=0;ptime=10".toList

def fmtpPrefix (pt : Str) : Str := "a=fmtp:".toList ++ pt

/-- Replacement callback of `sdp.replace(new RegExp("^a=fmtp:" + pt + ".*$", "m"), line => line.includes("ptime=") ? line : line + ";ptime=10")`. -/
def addPtime (l : Str) : Str :=
  if containsStr ("ptime=".toList) l then l else l ++ ";ptime=10".toList

/-- The regex `^a=fmtp:pt.*$` (no `g` flag) rewrites only the first
matching line; a line matches iff `"a=fmtp:" + pt` is a prefix of it.
This is the line-level view used in the proofs. -/
def fixFmtpLines (pt : Str) : List Str → List Str
  | [] => []
  | l :: ls =>
    if (fmtpPrefix pt).isPrefixOf l then addPtime l :: ls
    else l :: fixFmtpLines pt ls

/-- The same single-line rewrite on a terminator-keeping decomposition:
the first line (in text order) whose text starts with `"a=fmtp:" + pt`
is passed through `addPtime`; every other character of the text,
terminators included, stays in place. -/
def fixFmtpSegs (pt : Str) : List (Str × Char) → Str → List (Str × Char) × Str
  | [], last => ([], if (fmtpPrefix pt).isPrefixOf last then addPtime last else last)
  | p :: ps, last =>
    if (fmtpPrefix pt).isPrefixOf p.1 then ((addPtime p.1, p.2) :: ps, last)
    else (p :: (fixFmtpSegs pt ps last).1, (fixFmtpSegs pt ps last).2)

/-- `sdp.replace(new RegExp("^a=fmtp:" + pt + ".*$", "m"), ...)` on the
raw text. -/
def fixFmtpStr (pt : Str) (s : Str) : Str :=
  joinPre (fixFmtpSegs pt (splitSegs s).1 (splitSegs s).2).1
    (fixFmtpSegs pt (splitSegs s).1 (splitSegs s).2).2

def preferOpus (sdp : Str) : Str :=
  match firstAudioLine sdp, firstOpusPt sdp with
  | some m, some pt =>
    let reordered := reorderMLine m pt
    let sdp1 := replaceFirst m reordered sdp
    if containsStr (fmtpPrefix pt) sdp1 then
      fixFmtpStr pt sdp1
    else
      sdp1 ++ '\n' :: (fmtpPrefix pt ++ fmtpParams) ++ ['\n']
  | _, _ => sdp

/-- The body of `preferOpus` step by step inside `Except`, mirroring the
`try { ... } catch {}` boundary: every step is a total string operation,
so no step can fail. -/
def preferOpusE (sdp : Str) : Except String Str :=
  match firstAudioLine sdp, firstOpusPt sdp with
  | some m, some pt => do
    let reordered := reorderMLine m pt
    let sdp1 := replaceFirst m reordered sdp
    if containsStr (fmtpPrefix pt) sdp1 then
      pure (fixFmtpStr pt sdp1)
    else
      pure (sdp1 ++ '\n' :: (fmtpPrefix pt ++ fmtpParams) ++ ['\n'])
  | _, _ => pure sdp

/-! ## Model A: the part_000 server (`rooms : Map<roomId, Set<socketId>>`) -/

structure UserA where
  id : String
  username : String
  instrument : String
  audioEnabled : Bool
deriving DecidableEq, Repr

/-- `data` of a `signal` message: optionally an `sdp` object (its `type`
and its `sdp` text) and optionally a `candidate`. -/
structure SigDataA where
  sdp : Option (String × Str)
  candidate : Option Str
deriving DecidableEq

/-- `if (data?.sdp?.sdp) data.sdp.sdp = preferOpus(data.sdp.sdp)`. -/
def mungeSigData (d : SigDataA) : SigDataA :=
  { d with sdp := d.sdp.map (fun p => (p.1, preferOpus p.2)) }

inductive EPayloadA
  | joinedRoom (roomId : String) (users : List UserA)
  | userJoined (user : UserA) (users : List UserA)
  | usersUpdated (users : List UserA)
  | userLeft (id : String)
  | signalData (fromId : String) (data : SigDataA)
  | roomcastData (fromId : String) (payload : Str)
deriving DecidableEq

structure EmitA where
  recipients : List String
  eventName : String
  payload : EPayloadA
deriving DecidableEq

structure StateA where
  rooms : List (String × List String)
  userData : List (String × UserA)
  connected : List String

/-- `io.to(x)`: the members of adapter room `x` — the personal room of a
connected socket named `x`, plus every socket that joined room `x` (in
part_000 sockets never leave rooms while connected, so the adapter room
mirrors the `rooms` map entry). -/
def adapterMembersA (st : StateA) (x : String) : List String :=
  (if x ∈ st.connected then [x] else []) ++ (alookup st.rooms x).getD []

/-- `[...rooms.get(roomId)].map(id => io.sockets.sockets.get(id)?.data.user).filter(Boolean)`. -/
def snapshotA (st : StateA) (rid : String) : List UserA :=
  ((alookup st.rooms rid).getD []).filterMap
    (fun id => if id ∈ st.connected then alookup st.userData id else none)

/-- part_000 `join-room` handler (lines 51–71): normalize the id, bail out
if falsy, add to the (possibly new) room set, store `socket.data.user`,
emit `joined-room` to the caller and `user-joined` to the others.  The
previous room, if any, is NOT left. -/
def joinRoomA (st : StateA) (sid roomId username instrument : String) :
    StateA × List EmitA :=
  let rid := normRoomId roomId
  if rid = "" then (st, [])
  else
    let members := (alookup st.rooms rid).getD []
    let members' := if sid ∈ members then members else members ++ [sid]
    let user : UserA := ⟨sid, jsOr username "user", jsOr instrument "guitar", false⟩
    let st' : StateA :=
      { rooms := aset st.rooms rid members',
        userData := aset st.userData sid user,
        connected := st.connected }
    let users := snapshotA st' rid
    (st',
      [⟨[sid], "joined-room", .joinedRoom rid users⟩,
       ⟨(adapterMembersA st' rid).filter (fun r => r ≠ sid), "user-joined",
         .userJoined user users⟩])

/-- part_000 `signal` handler (lines 88–91): munge the SDP, then
`io.to(to).emit("signal", { from, data })` — no room-membership check;
the `roomId` field of the message is ignored. -/
def signalA (st : StateA) (sender toId roomId : String) (data : SigDataA) : List EmitA :=
  let _ := roomId
  [⟨adapterMembersA st toId, "signal", .signalData sender (mungeSigData data)⟩]

/-- part_000 `roomcast` handler (lines 94–96):
`io.to(roomId).emit(type, { from: socket.id, payload })` — the event name
is the client-supplied `type`, and the payload is forwarded unmodified. -/
def roomcastA (st : StateA) (sender roomId ty : String) (payload : Str) : List EmitA :=
  [⟨adapterMembersA st roomId, ty, .roomcastData sender payload⟩]

/-- part_000 `disconnect` handler (lines 98–109), state part: for each
room, delete the socket; if the set became empty delete the room. -/
def dropSockA : List (String × List String) → String → List (String × List String)
  | [], _ => []
  | (r, members) :: t, sid =>
    if sid ∈ members then
      let m' := members.erase sid
      if m' = [] then dropSockA t sid else (r, m') :: dropSockA t sid
    else (r, members) :: dropSockA t sid

def disconnectA (st : StateA) (sid : String) : StateA :=
  { rooms := dropSockA st.rooms sid,
    userData := st.userData,
    connected := st.connected.erase sid }

/-- Delivered messages: one `(recipient, eventName)` pair per recipient
of each emission. -/
def deliveredA (es : List EmitA) : List (String × String) :=
  (es.map (fun e => e.recipients.map (fun r => (r, e.eventName)))).flatten

/-- Invariant of C5: no room entry maps to an empty participant set. -/
def NoEmptyRoomsA (rooms : List (String × List String)) : Prop :=
  ∀ p ∈ rooms, p.2 ≠ []

instance (rooms : List (String × List String)) : Decidable (NoEmptyRoomsA rooms) := by
  unfold NoEmptyRoomsA
  infer_instance

/-! ## Model S: server.js (`Room` class, HTTP `POST /api/rooms`) -/

structure UserS where
  id : String
  username : String
  instrument : String
  audioEnabled : Bool
deriving DecidableEq

structure RoomS where
  id : String
  name : String
  maxUsers : Nat
  users : List (String × UserS)
deriving DecidableEq

/-- `POST /api/rooms` (server.js lines 106–120): `new Room(roomId, name,
maxUsers)` starts with `this.users = new Map()` (empty) and is put into
the registry; `generateRoomId()`'s random output is a parameter. -/
def postApiRooms (rooms : List (String × RoomS)) (generatedId name : String)
    (maxUsers : Nat) : List (String × RoomS) :=
  aset rooms generatedId ⟨generatedId, name, maxUsers, []⟩

/-! ## Model B: the part_003 server (`rooms : Map<roomId, Map<socketId, user>>`) -/

structure UserB where
  id : String
  username : String
  instrument : String
deriving DecidableEq

structure SockDataB where
  username : Option String
  instrument : Option String
  roomId : Option String
deriving DecidableEq

structure StateB where
  rooms : List (String × List (String × UserB))
  sockData : List (String × SockDataB)
  connected : List String

def sdataB (st : StateB) (sid : String) : SockDataB :=
  (alookup st.sockData sid).getD ⟨none, none, none⟩

/-- `getUsers(roomId)`: `Array.from(m.values())`, `[]` if no room. -/
def getUsersB (rooms : List (String × List (String × UserB))) (rid : String) :
    List UserB :=
  ((alookup rooms rid).getD []).map (fun p => p.2)

/-- `io.to(r)` in part_003: a connected socket is in adapter room `r` iff
`r` is its personal room or its current `sock.data.roomId` (part_003
always calls `sock.leave` when switching rooms, so a socket's only
application-level adapter room is the one recorded in its data). -/
def ioToB (st : StateB) (r : String) : List String :=
  st.connected.filter (fun s => s == r || (sdataB st s).roomId == some r)

/-- `target.rooms.has(roomId)` for the directed `signal` arm: the target
socket exists and the stated room is its personal room or its current
room. -/
def targetHasRoomB (st : StateB) (toId roomId : String) : Bool :=
  st.connected.contains toId &&
    (toId == roomId || (sdataB st toId).roomId == some roomId)

inductive EPayloadB
  | joinedRoom (roomId : String) (users : List UserB) (selfId : String)
  | userJoined (user : UserB) (users : List UserB)
  | usersUpdated (users : List UserB)
  | userLeft (id : String) (username : Option String) (users : List UserB)
  | signalData (fromId : String) (data : SigDataA)
  | roomcastText (username : String) (message : Str)
deriving DecidableEq

structure EmitB where
  recipients : List String
  eventName : String
  payload : EPayloadB
deriving DecidableEq

def deliveredB (es : List EmitB) : List (String × String) :=
  (es.map (fun e => e.recipients.map (fun r => (r, e.eventName)))).flatten

/-- part_003 `join-room` handler (lines 45–80): bail out if `roomId` is
falsy; normalize id/name/instrument; if the socket's recorded room
differs, remove it there first (deleting the room if emptied) and emit
`user-left` + `users-updated` to that room; then insert into the new
room, update `sock.data`, and emit `joined-room`, `user-joined`,
`users-updated`. -/
def joinRoomB (st : StateB) (sid roomId username instrument : String) :
    StateB × List EmitB :=
  if roomId = "" then (st, [])
  else
    let rid := normRoomId roomId
    let uname := strTake 24 (jsOr username "musician")
    let instr := strTake 24 (jsOr instrument "guitar")
    let leaveStep : StateB × List EmitB :=
      match (sdataB st sid).roomId with
      | some prev =>
        if prev ≠ rid then
          match alookup st.rooms prev with
          | some pm =>
            let pm' := adel pm sid
            let rooms' := if pm' = [] then adel st.rooms prev else aset st.rooms prev pm'
            ({ st with rooms := rooms' },
              [⟨ioToB st prev, "user-left",
                 .userLeft sid (sdataB st sid).username (getUsersB rooms' prev)⟩,
               ⟨ioToB st prev, "users-updated",
                 .usersUpdated (getUsersB rooms' prev)⟩])
          | none => (st, [])
        else (st, [])
      | none => (st, [])
    let st₁ := leaveStep.1
    let user : UserB := ⟨sid, uname, instr⟩
    let newRoom := aset ((alookup st₁.rooms rid).getD []) sid user
    let st₂ : StateB :=
      { rooms := aset st₁.rooms rid newRoom,
        sockData := aset st₁.sockData sid ⟨some uname, some instr, some rid⟩,
        connected := st₁.connected }
    let users := getUsersB st₂.rooms rid
    (st₂,
      leaveStep.2 ++
        [⟨[sid], "joined-room", .joinedRoom rid users sid⟩,
         ⟨(ioToB st₂ rid).filter (fun r => r ≠ sid), "user-joined",
           .userJoined user users⟩,
         ⟨ioToB st₂ rid, "users-updated", .usersUpdated users⟩])

/-- part_003 `signal` handler (lines 98–114): drop if `roomId` or `data`
is falsy; `to === "*"` fans out to every other member of the adapter
room; otherwise deliver only when the target socket exists and
`target.rooms.has(roomId)`. -/
def signalB (st : StateB) (sender toId roomId : String) (data : Option SigDataA) :
    List EmitB :=
  if roomId = "" ∨ data.isNone then []
  else
    let d := data.getD ⟨none, none⟩
    if toId = "*" then
      ((ioToB st roomId).filter (fun s => s ≠ sender)).map
        (fun sid2 => ⟨[sid2], "signal", .signalData sender d⟩)
    else
      if targetHasRoomB st toId roomId then
        [⟨[toId], "signal", .signalData sender d⟩]
      else []

/-- part_003 `roomcast` handler (lines 83–87): drop if `roomId` or
`message` is falsy; otherwise broadcast the message truncated to 240
characters. -/
def roomcastB (st : StateB) (sender roomId : String) (message : Str) : List EmitB :=
  if roomId = "" ∨ message = [] then []
  else
    let username := jsOr ((sdataB st sender).username.getD "") "user"
    [⟨ioToB st roomId, "roomcast", .roomcastText username (message.take 240)⟩]

/-- part_003 `disconnect` handler (lines 120–130), state part. -/
def disconnectB (st : StateB) (sid : String) : StateB :=
  match (sdataB st sid).roomId with
  | none => { st with connected := st.connected.erase sid }
  | some rid =>
    match alookup st.rooms rid with
    | none => { st with connected := st.connected.erase sid }
    | some m =>
      let m' := adel m sid
      { st with
        rooms := if m' = [] then adel st.rooms rid else aset st.rooms rid m',
        connected := st.connected.erase sid }

/-! ## The self-test harness (part_004 `runSelfTest`, lines 98–151)

The asynchronous part is embedded as a control-flow skeleton: the
outcome of the awaited steps (socket connection, the
`Promise.race([A.onTrackPromise, B.onTrackPromise, raceTimeout])`) and
the inbound-RTP byte counts later read from `getStats()` are inputs.
`runSelfTest` has no try/catch, so a rejected await surfaces as
`Except.error` and the statements after it — including
`A.sock.disconnect(); B.sock.disconnect(); A.pc.close(); B.pc.close()` —
do not run; the cleanup record reports which of them ran. -/

inductive STOutcome
  | connectError (msg : String)
  | trackTimeout
  | tracksArrived
deriving DecidableEq

structure STEnv where
  outcome : STOutcome
  bytesA : Nat
  bytesB : Nat
deriving DecidableEq

structure STReport where
  ok : Bool
  room : String
  bytesA : Nat
  bytesB : Nat
  note : String
deriving DecidableEq

structure STCleanup where
  socketsDisconnected : Bool
  peersClosed : Bool
deriving DecidableEq

def runSelfTest (env : STEnv) (room : String) : Except String STReport × STCleanup :=
  match env.outcome with
  | .connectError msg => (Except.error msg, ⟨false, false⟩)
  | .trackTimeout => (Except.error "timeout waiting for tracks", ⟨false, false⟩)
  | .tracksArrived =>
    let ok := decide (0 < env.bytesA) && decide (0 < env.bytesB)
    (Except.ok
      ⟨ok, room, env.bytesA, env.bytesB,
        if ok then "media flowed (bytesReceived>0). Opus preferred, ptime=10."
        else "no media counted; inspect signaling/ICE reachability"⟩,
      ⟨true, true⟩)

/-- The HTTP wrapper `app.post("/diag/selftest", ...)` (part_002 lines
129–137): it, not `runSelfTest`, converts a propagated exception into a
structured `{ ok: false }` response (status 500). -/
def postDiagSelftest (env : STEnv) (room : String) : Nat × Bool :=
  match runSelfTest env room with
  | (Except.ok r, _) => (200, r.ok)
  | (Except.error _, _) => (500, false)

/-! ## Predicates and concrete fixtures used by the claim theorems -/

/-- Membership of a socket in a room's participant map (model B). -/
def inRoomB (st : StateB) (sid r : String) : Bool :=
  match alookup st.rooms r with
  | some m => m.any (fun p => p.1 == sid)
  | none => false

/-- Registry well-formedness for one socket (model B): every room entry
whose participant map contains `sid` is the room recorded in `sid`'s
socket data.  Reachable part_003 states satisfy this. -/
def WFB (st : StateB) (sid : String) : Bool :=
  st.rooms.all
    (fun rm => !(rm.2.any (fun p => p.1 == sid)) || ((sdataB st sid).roomId == some rm.1))

def stC1 : StateA := ⟨[("A", ["S1"]), ("B", ["S2"])], [], ["S1", "S2"]⟩

def stC2 : StateA := ⟨[], [], ["S1"]⟩

def stC3 : StateA := ⟨[], [], ["S1"]⟩

def stC8 : StateA := ⟨[("R", ["S1", "S2"])], [], ["S1", "S2"]⟩

def bigPayload : Str := List.replicate 241 'x'

def stW5 : StateA := ⟨[("A", ["S1"])], [("S1", ⟨"S1", "u", "g", false⟩)], ["S1"]⟩

def stW10 : StateA := ⟨[("R", ["S1", "S2"])], [], ["S1", "S2"]⟩

def stW1A : StateA := ⟨[], [], []⟩

def stW1B : StateB :=
  ⟨[("B", [("S2", ⟨"S2", "n", "i"⟩)])], [("S2", ⟨some "n", some "i", some "B"⟩)], ["S2"]⟩

def stW2 : StateB :=
  ⟨[("A", [("S1", ⟨"S1", "n", "i"⟩)])], [("S1", ⟨some "n", some "i", some "A"⟩)], ["S1"]⟩

def stW8 : StateB :=
  ⟨[("R", [("S1", ⟨"S1", "n", "i"⟩)])], [("S1", ⟨some "n", some "i", some "R"⟩)], ["S1"]⟩

theorem alookup_aset_self {α : Type} (m : List (String × α)) (k : String) (v : α) :
    alookup (aset m k v) k = some v := by
  induction m with
  | nil => simp [aset, alookup]
  | cons p t ih =>
    obtain ⟨k', v'⟩ := p
    by_cases h : k' = k <;> simp [aset, alookup, h, ih]

theorem alookup_aset_ne {α : Type} (m : List (String × α)) (k k₀ : String) (v : α)
    (h : k₀ ≠ k) : alookup (aset m k v) k₀ = alookup m k₀ := by
  have hne : k ≠ k₀ := fun hh => h hh.symm
  induction m with
  | nil => simp [aset, alookup, hne]
  | cons p t ih =>
    obtain ⟨k', v'⟩ := p
    by_cases hk : k' = k
    · subst hk
      simp [aset, alookup, hne]
    · simp [aset, alookup, hk, ih]

theorem alookup_adel_ne {α : Type} (m : List (String × α)) (k k₀ : String)
    (h : k₀ ≠ k) : alookup (adel m k) k₀ = alookup m k₀ := by
  have hne : k ≠ k₀ := fun hh => h hh.symm
  induction m with
  | nil => simp [adel]
  | cons p t ih =>
    obtain ⟨k', v'⟩ := p
    by_cases hk : k' = k
    · subst hk
      simp [adel, alookup, hne]
    · simp [adel, alookup, hk, ih]

theorem alookup_mem {α : Type} {m : List (String × α)} {k : String} {v : α}
    (h : alookup m k = some v) : (k, v) ∈ m := by
  induction m with
  | nil => simp [alookup] at h
  | cons p t ih =>
    obtain ⟨k', v'⟩ := p
    by_cases hk : k' = k
    · subst hk
      simp [alookup] at h
      simp [h]
    · simp [alookup, hk] at h
      exact List.mem_cons_of_mem _ (ih h)

theorem mem_aset {α : Type} {m : List (String × α)} {k : String} {v : α} {p : String × α}
    (h : p ∈ aset m k v) : p = (k, v) ∨ p ∈ m := by
  induction m with
  | nil => simpa [aset] using h
  | cons q t ih =>
    obtain ⟨k', v'⟩ := q
    by_cases hk : k' = k
    · simp [aset, hk] at h
      rcases h with h | h
      · exact Or.inl h
      · exact Or.inr (List.mem_cons_of_mem _ h)
    · simp [aset, hk] at h
      rcases h with h | h
      · exact Or.inr (by simp [h])
      · rcases ih h with h' | h'
        · exact Or.inl h'
        · exact Or.inr (List.mem_cons_of_mem _ h')

/-- C3 counterexample: a `join-room` with the whitespace-only room id
`" "` is NOT a no-op in part_000 — no trimming occurs, `" "` is truthy,
so a room named `" "` is created, the socket is added, and both events
are emitted. -/
theorem C3_counterexample :
    (joinRoomA stC3 "S1" " " "Ann" "guitar").2 ≠ [] ∧
    alookup (joinRoomA stC3 "S1" " " "Ann" "guitar").1.rooms " " = some ["S1"] := by
  constructor
  · decide
  · decide

/-- C3 (amended): a `join-room` request whose room id is empty after
`String(roomId || "").toUpperCase().slice(0, 12)` is a no-op — no room
created, no participant added, no event emitted.  Whitespace-only ids
are not empty after this normalization (there is no trim) and are
processed normally. -/
theorem C3_empty_roomId_noop (st : StateA) (sid username instrument : String) :
    joinRoomA st sid "" username instrument = (st, []) := by
  have h : normRoomId "" = "" := by decide
  simp [joinRoomA, h]

/-- C7 counterexample: the normalized form of `"abc123456789012"` is not
the 13-character `"ABC1234567890"` stated by the specification. -/
theorem C7_counterexample : normRoomId "abc123456789012" ≠ "ABC1234567890" := by
  decide

/-- C7 (amended): `"abc123456789012"` normalizes to the 12-character
`"ABC123456789"`, and the `join-room` handler uses exactly this id in the
`joined-room` confirmation it emits and as the registry key. -/
theorem C7_normalized_roomId (st : StateA) (sid username instrument : String) :
    normRoomId "abc123456789012" = "ABC123456789" ∧
    (joinRoomA st sid "abc123456789012" username instrument).2.map EmitA.eventName
      = ["joined-room", "user-joined"] ∧
    (∃ users,
      ((joinRoomA st sid "abc123456789012" username instrument).2.map
          EmitA.payload).head? = some (.joinedRoom "ABC123456789" users)) ∧
    alookup (joinRoomA st sid "abc123456789012" username instrument).1.rooms
      "ABC123456789" ≠ none := by
  have h : normRoomId "abc123456789012" = "ABC123456789" := by decide
  refine ⟨h, ?_, ?_, ?_⟩ <;>
    simp +decide [joinRoomA, h, alookup_aset_self]

/-- C5 counterexample: `POST /api/rooms` puts a `Room` whose `users` map
is empty into the registry — an operation that creates a room entry with
zero participants. -/
theorem C5_counterexample :
    (alookup (postApiRooms [] "ABCD1234" "jam" 8) "ABCD1234").map RoomS.users
      = some [] := by
  decide

theorem noEmpty_dropSockA (rooms : List (String × List String)) (sid : String)
    (h : NoEmptyRoomsA rooms) : NoEmptyRoomsA (dropSockA rooms sid) := by
  induction rooms with
  | nil => simp [dropSockA, NoEmptyRoomsA]
  | cons p t ih =>
    obtain ⟨r, members⟩ := p
    have ht : NoEmptyRoomsA t := fun q hq => h q (List.mem_cons_of_mem _ hq)
    by_cases hc : sid ∈ members
    · by_cases he : members.erase sid = []
      · simpa [dropSockA, hc, he] using ih ht
      · intro q hq
        simp only [dropSockA, if_pos hc, if_neg he] at hq
        rcases List.mem_cons.mp hq with hq | hq
        · rw [hq]
          exact he
        · exact ih ht q hq
    · intro q hq
      simp only [dropSockA, if_neg hc] at hq
      rcases List.mem_cons.mp hq with hq | hq
      · rw [hq]
        exact h (r, members) (by simp)
      · exact ih ht q hq

/-- C5 (amended): the socket-driven registry operations of part_000
(`join-room`, `disconnect`) preserve the no-empty-rooms invariant — a
room emptied by a disconnect is deleted, and a join never creates an
empty set; the violation of the claim is `POST /api/rooms`, which
creates an empty room entry (see the counterexample). -/
theorem C5_socket_ops_no_empty_rooms (st : StateA)
    (sid roomId username instrument : String)
    (h : NoEmptyRoomsA st.rooms) :
    NoEmptyRoomsA (joinRoomA st sid roomId username instrument).1.rooms ∧
    NoEmptyRoomsA (disconnectA st sid).rooms := by
  constructor
  · by_cases hr : normRoomId roomId = ""
    · simpa [joinRoomA, hr] using h
    · intro p hp
      simp only [joinRoomA, hr, if_false] at hp
      rcases mem_aset hp with hpe | hpo
      · rw [hpe]
        by_cases hc : sid ∈ (alookup st.rooms (normRoomId roomId)).getD []
        · simpa [hc] using List.ne_nil_of_mem hc
        · simp [hc]
      · exact h p hpo
  · exact noEmpty_dropSockA st.rooms sid h

/-- C5 witness: the amended theorem applied at a concrete one-room state. -/
theorem C5_witness :
    NoEmptyRoomsA stW5.rooms ∧
    (NoEmptyRoomsA (joinRoomA stW5 "S1" "b" "Bo" "bass").1.rooms ∧
     NoEmptyRoomsA (disconnectA stW5 "S1").rooms) :=
  ⟨by decide, C5_socket_ops_no_empty_rooms stW5 "S1" "b" "Bo" "bass" (by decide)⟩

/-- C6 counterexample: on the timeout path `runSelfTest` rejects with the
`"timeout waiting for tracks"` error instead of returning a structured
`ok: false` result, and the sockets/peer connections are not released. -/
theorem C6_counterexample :
    (runSelfTest ⟨.trackTimeout, 0, 0⟩ "TESTAB12").1
        = Except.error "timeout waiting for tracks" ∧
    (runSelfTest ⟨.trackTimeout, 0, 0⟩ "TESTAB12").2
        = ⟨false, false⟩ :=
  ⟨rfl, rfl⟩

/-- C6 (amended): `runSelfTest` returns a structured `ok: false` with a
diagnostic note — after disconnecting both sockets and closing both peer
connections — only on the path where tracks arrived but no bytes were
counted; on timeout or transport error the exception propagates, no
cleanup runs, and it is the HTTP wrapper `POST /diag/selftest` that turns
the exception into a 500 `{ ok: false }` response. -/
theorem C6_selftest_paths (env : STEnv) (room : String) :
    (env.outcome ≠ .tracksArrived →
      (runSelfTest env room).2 = ⟨false, false⟩ ∧
      (∃ msg, (runSelfTest env room).1 = Except.error msg) ∧
      postDiagSelftest env room = (500, false)) ∧
    (env.outcome = .tracksArrived → ¬(0 < env.bytesA ∧ 0 < env.bytesB) →
      runSelfTest env room
        = (Except.ok ⟨false, room, env.bytesA, env.bytesB,
            "no media counted; inspect signaling/ICE reachability"⟩,
           ⟨true, true⟩)) := by
  constructor
  · intro hne
    cases ho : env.outcome with
    | connectError msg => simp [runSelfTest, postDiagSelftest, ho]
    | trackTimeout => simp [runSelfTest, postDiagSelftest, ho]
    | tracksArrived => exact absurd ho hne
  · intro ho hb
    have h1 : ¬(0 < env.bytesA) ∨ ¬(0 < env.bytesB) := by
      by_contra hcon
      push_neg at hcon
      exact hb ⟨hcon.1, hcon.2⟩
    rcases h1 with h1 | h1 <;>
      simp [runSelfTest, ho, h1]

/-- C6 witness: the amended theorem applied on the timeout path. -/
theorem C6_witness :
    ((⟨.trackTimeout, 0, 0⟩ : STEnv).outcome ≠ .tracksArrived) ∧
    ((runSelfTest ⟨.trackTimeout, 0, 0⟩ "ROOM1").2 = ⟨false, false⟩ ∧
     (∃ msg, (runSelfTest ⟨.trackTimeout, 0, 0⟩ "ROOM1").1 = Except.error msg) ∧
     postDiagSelftest ⟨.trackTimeout, 0, 0⟩ "ROOM1" = (500, false)) :=
  ⟨by decide, (C6_selftest_paths ⟨.trackTimeout, 0, 0⟩ "ROOM1").1 (by decide)⟩

/-- C10: the part_000 `roomcast` handler emits to the stated room an
event whose name is exactly the client-supplied `type` string —
unvalidated, so any string, including reserved protocol names such as
`"signal"`, `"user-joined"` or `"users-updated"`, is emitted verbatim to
every member of the room's adapter set, including the sender. -/
theorem C10_roomcast_event_name (st : StateA) (sender roomId ty : String) (payload : Str)
    (hmem : sender ∈ adapterMembersA st roomId) :
    (roomcastA st sender roomId ty payload).map EmitA.eventName = [ty] ∧
    ∀ e ∈ roomcastA st sender roomId ty payload,
      e.recipients = adapterMembersA st roomId ∧ sender ∈ e.recipients := by
  refine ⟨rfl, ?_⟩
  intro e he
  simp only [roomcastA, List.mem_singleton] at he
  rw [he]
  exact ⟨rfl, hmem⟩

/-- C10 witness: the theorem applied with the reserved event name
`"signal"` in a concrete two-member room. -/
theorem C10_witness :
    "S1" ∈ adapterMembersA stW10 "R" ∧
    ((roomcastA stW10 "S1" "R" "signal" ['h', 'i']).map EmitA.eventName = ["signal"] ∧
     ∀ e ∈ roomcastA stW10 "S1" "R" "signal" ['h', 'i'],
       e.recipients = adapterMembersA stW10 "R" ∧ "S1" ∈ e.recipients) :=
  ⟨by decide, C10_roomcast_event_name stW10 "S1" "R" "signal" ['h', 'i'] (by decide)⟩

set_option maxRecDepth 8192 in
/-- C8 counterexample: the part_000 `roomcast` forwards a 241-character
payload at full length to a nonempty recipient set — nothing bounds the
payload. -/
theorem C8_counterexample :
    (roomcastA stC8 "S1" "R" "chat" bigPayload).map EmitA.payload
      = [.roomcastData "S1" bigPayload] ∧
    240 < bigPayload.length ∧
    ∀ e ∈ roomcastA stC8 "S1" "R" "chat" bigPayload, e.recipients ≠ [] := by
  refine ⟨rfl, by simp [bigPayload], by decide⟩

/-- C8 (amended): the part_003 `roomcast` forwards the message text
truncated to 240 characters, so the forwarded text never exceeds the
bound; the part_000 `roomcast` forwards its payload unmodified with no
bound at all (see the counterexample). -/
theorem C8_roomcast_truncated (st : StateB) (sender roomId : String) (message : Str)
    (h1 : roomId ≠ "") (h2 : message ≠ []) :
    (roomcastB st sender roomId message).map EmitB.payload
      = [.roomcastText (jsOr ((sdataB st sender).username.getD "") "user")
          (message.take 240)] ∧
    (message.take 240).length ≤ 240 := by
  constructor
  · simp [roomcastB, h1, h2]
  · exact List.length_take_le 240 message

/-- C8 witness: the amended theorem applied at a concrete state. -/
theorem C8_witness :
    (("R" : String) ≠ "" ∧ (['h', 'i'] : Str) ≠ []) ∧
    ((roomcastB stW8 "S1" "R" ['h', 'i']).map EmitB.payload
        = [.roomcastText (jsOr ((sdataB stW8 "S1").username.getD "") "user")
            ((['h', 'i'] : Str).take 240)] ∧
      ((['h', 'i'] : Str).take 240).length ≤ 240) :=
  ⟨⟨by decide, by decide⟩,
   C8_roomcast_truncated stW8 "S1" "R" ['h', 'i'] (by decide) (by decide)⟩

/-- C1 counterexample: in part_000, a `signal` addressed to the connected
socket `"S2"`, which is a member of room `"B"` and not of the stated room
`"A"`, is nevertheless delivered to `"S2"` — `io.to(to)` performs no
membership check. -/
theorem C1_counterexample :
    alookup stC1.rooms "A" = some ["S1"] ∧
    deliveredA (signalA stC1 "S1" "S2" "A" ⟨none, some ['c']⟩)
      = [("S2", "signal")] := by
  refine ⟨by decide, by decide⟩

/-- C1 (amended): in the part_003 relay a directed `signal` whose target
does not exist or is not in the stated room is silently dropped (no
delivery, no error); in the part_000 relay only a target with an empty
adapter room (e.g. an already-disconnected socket) is dropped — a
connected target receives the message regardless of the stated room (see
the counterexample); in neither variant is an error sent to the sender. -/
theorem C1_unauthorized_signal_dropped (stB : StateB) (stA : StateA)
    (sender toId roomId : String) (dB : Option SigDataA) (dA : SigDataA)
    (hstar : toId ≠ "*") (hB : targetHasRoomB stB toId roomId = false)
    (hAc : toId ∉ stA.connected) (hAr : alookup stA.rooms toId = none) :
    signalB stB sender toId roomId dB = [] ∧
    deliveredA (signalA stA sender toId roomId dA) = [] := by
  constructor
  · unfold signalB
    by_cases hc : roomId = "" ∨ dB.isNone
    · rw [if_pos hc]
    · rw [if_neg hc]
      simp [hstar, hB]
  · simp [signalA, deliveredA, adapterMembersA, hAc, hAr]

/-- C1 witness: the amended theorem applied to a target socket that is
connected but in room `"B"` (part_003 side) and to a target socket that
does not exist at all (part_000 side). -/
theorem C1_witness :
    (("S2" : String) ≠ "*" ∧ targetHasRoomB stW1B "S2" "A" = false ∧
      "S2" ∉ stW1A.connected ∧ alookup stW1A.rooms "S2" = none) ∧
    (signalB stW1B "S1" "S2" "A" (some ⟨none, some ['c']⟩) = [] ∧
     deliveredA (signalA stW1A "S1" "S2" "A" ⟨none, some ['c']⟩) = []) :=
  ⟨⟨by decide, by decide, by decide, by decide⟩,
   C1_unauthorized_signal_dropped stW1B stW1A "S1" "S2" "A"
     (some ⟨none, some ['c']⟩) ⟨none, some ['c']⟩
     (by decide) (by decide) (by decide) (by decide)⟩

/-- C9: the normalizer never throws past its boundary — every step of the
rewrite is a total string operation, so the `Except`-embedded body always
returns `ok` (the `catch` is unreachable on every input), and on the
parse-failure paths (no audio m-line, or no opus rtpmap line) the input
text is returned unchanged. -/
theorem C9_normalizer_never_throws (sdp : Str) :
    preferOpusE sdp = Except.ok (preferOpus sdp) ∧
    ((firstAudioLine sdp = none ∨ firstOpusPt sdp = none) → preferOpus sdp = sdp) := by
  constructor
  · cases hx : firstAudioLine sdp <;> cases hy : firstOpusPt sdp <;>
      simp only [preferOpusE, preferOpus, hx, hy] <;>
      first
        | rfl
        | (split <;> rfl)
  · intro h
    cases hx : firstAudioLine sdp <;> cases hy : firstOpusPt sdp <;>
      simp [preferOpus, hx, hy] at h ⊢

/-- C9 witness: the theorem applied to a text with no audio m-line. -/
theorem C9_witness :
    (firstAudioLine ("v=0".toList) = none ∨ firstOpusPt ("v=0".toList) = none) ∧
    preferOpus ("v=0".toList) = "v=0".toList :=
  ⟨Or.inl (by decide),
   (C9_normalizer_never_throws ("v=0".toList)).2 (Or.inl (by decide))⟩

theorem any_key_aset {α : Type} (m : List (String × α)) (k : String) (v : α) :
    (aset m k v).any (fun p => p.1 == k) = true := by
  induction m with
  | nil => simp [aset]
  | cons p t ih =>
    obtain ⟨k', v'⟩ := p
    by_cases h : k' = k <;> simp [aset, h, ih]

theorem alookup_eq_none_of_not_mem_keys {α : Type} {m : List (String × α)} {k : String}
    (h : k ∉ m.map Prod.fst) : alookup m k = none := by
  induction m with
  | nil => rfl
  | cons p t ih =>
    obtain ⟨k', v'⟩ := p
    simp only [List.map_cons, List.mem_cons, not_or] at h
    have hk : k' ≠ k := fun hh => h.1 hh.symm
    simp [alookup, hk, ih h.2]

theorem alookup_adel_self_of_nodup {α : Type} {m : List (String × α)} {k : String}
    (h : (m.map Prod.fst).Nodup) : alookup (adel m k) k = none := by
  induction m with
  | nil => rfl
  | cons p t ih =>
    obtain ⟨k', v'⟩ := p
    simp only [List.map_cons, List.nodup_cons] at h
    by_cases hk : k' = k
    · subst hk
      simpa [adel] using alookup_eq_none_of_not_mem_keys h.1
    · simpa [adel, alookup, hk] using ih h.2

theorem any_key_adel_of_nodup {α : Type} {m : List (String × α)} {k : String}
    (h : (m.map Prod.fst).Nodup) : (adel m k).any (fun p => p.1 == k) = false := by
  induction m with
  | nil => rfl
  | cons p t ih =>
    obtain ⟨k', v'⟩ := p
    simp only [List.map_cons, List.nodup_cons] at h
    by_cases hk : k' = k
    · subst hk
      simp only [adel, if_pos rfl]
      rw [List.any_eq_false]
      intro p hp
      simp only [beq_iff_eq]
      exact fun hh => h.1 (hh ▸ List.mem_map_of_mem Prod.fst hp)
    · simpa [adel, alookup, hk] using ih h.2

/-- Characterization of the registry after a part_003 `join-room` with a
nonempty requested id: leave the previous room first (if different),
then insert into the target room. -/
theorem joinRoomB_rooms (st : StateB) (sid roomId username instrument : String)
    (h : roomId ≠ "") :
    (joinRoomB st sid roomId username instrument).1.rooms
      = (let rid := normRoomId roomId
         let rooms₁ :=
           match (sdataB st sid).roomId with
           | some prev =>
             if prev ≠ rid then
               match alookup st.rooms prev with
               | some pm =>
                 if adel pm sid = [] then adel st.rooms prev
                 else aset st.rooms prev (adel pm sid)
               | none => st.rooms
             else st.rooms
           | none => st.rooms
         aset rooms₁ rid
           (aset ((alookup rooms₁ rid).getD []) sid
             ⟨sid, strTake 24 (jsOr username "musician"),
              strTake 24 (jsOr instrument "guitar")⟩)) := by
  unfold joinRoomB
  rw [if_neg h]
  cases hp : (sdataB st sid).roomId with
  | none => rfl
  | some prev =>
    by_cases hpr : prev ≠ normRoomId roomId
    · cases hm : alookup st.rooms prev with
      | none => simp [hpr, hm]
      | some pm => by_cases hd : adel pm sid = [] <;> simp [hpr, hm, hd]
    · simp [hpr]

/-- C2 counterexample: in part_000 a second `join-room` does not remove
the socket from its previous room — after joining `"a"` and then `"b"`,
socket `"S1"` is simultaneously in the participant sets of rooms `"A"`
and `"B"`. -/
theorem C2_counterexample :
    alookup (joinRoomA (joinRoomA stC2 "S1" "a" "Ann" "gtr").1 "S1" "b" "Ann" "gtr").1.rooms
        "A" = some ["S1"] ∧
    alookup (joinRoomA (joinRoomA stC2 "S1" "a" "Ann" "gtr").1 "S1" "b" "Ann" "gtr").1.rooms
        "B" = some ["S1"] :=
  ⟨by decide, by decide⟩

theorem roomsB_transfer_core (st' : StateB)
    (stRooms R₁ : List (String × List (String × UserB)))
    (sid roomA rid : String) (user : UserB)
    (hrooms : st'.rooms = aset R₁ rid (aset ((alookup R₁ rid).getD []) sid user))
    (hne : roomA ≠ rid)
    (hWF' : ∀ r m, alookup stRooms r = some m →
      m.any (fun p => p.1 == sid) = true → r = roomA)
    (ha : alookup R₁ roomA = none ∨
      ∃ pm', alookup R₁ roomA = some pm' ∧
        pm'.any (fun p => p.1 == sid) = false ∧ pm' ≠ [])
    (hb : ∀ r, r ≠ roomA → alookup R₁ r = alookup stRooms r) :
    inRoomB st' sid rid = true ∧ inRoomB st' sid roomA = false ∧
    (∀ r, inRoomB st' sid r = true → r = rid) ∧
    (∀ m, alookup st'.rooms roomA = some m → m ≠ []) := by
  have hAlook : alookup st'.rooms roomA = alookup R₁ roomA := by
    rw [hrooms]
    exact alookup_aset_ne _ _ _ _ hne
  have h2 : inRoomB st' sid roomA = false := by
    unfold inRoomB
    rcases ha with ha | ⟨pm', ha, hany, _⟩
    · rw [hAlook, ha]
    · rw [hAlook, ha]
      exact hany
  refine ⟨?_, h2, ?_, ?_⟩
  · unfold inRoomB
    rw [hrooms, alookup_aset_self]
    exact any_key_aset _ _ _
  · intro r hr
    by_cases hrid : r = rid
    · exact hrid
    · exfalso
      by_cases hra : r = roomA
      · rw [hra, h2] at hr
        simp at hr
      · unfold inRoomB at hr
        have heq : alookup st'.rooms r = alookup stRooms r := by
          rw [hrooms, alookup_aset_ne _ _ _ _ hrid]
          exact hb r hra
        rw [heq] at hr
        cases hm : alookup stRooms r with
        | none =>
          rw [hm] at hr
          simp at hr
        | some m =>
          rw [hm] at hr
          exact hra (hWF' r m hm hr)
  · intro m hm
    rw [hAlook] at hm
    rcases ha with ha | ⟨pm', ha, _, hnil⟩
    · rw [ha] at hm
      cases hm
    · rw [ha] at hm
      injection hm with hm
      exact hm ▸ hnil

/-- C2 (amended): in the part_003 relay, a second `join-room` naming a
different room transfers the participant: after the call the socket is in
the (normalized) new room, no longer in the old room, in no other room,
and the old room's entry, if still present, is nonempty (it is deleted
when emptied).  The part_000 relay instead leaves the socket in both
rooms' participant sets (see the counterexample). -/
theorem C2_room_transfer (st : StateB) (sid roomA roomB username instrument : String)
    (hWF : WFB st sid = true)
    (hUO : (st.rooms.map Prod.fst).Nodup)
    (hUI : ∀ rm ∈ st.rooms, (rm.2.map Prod.fst).Nodup)
    (hprev : (sdataB st sid).roomId = some roomA)
    (hBne : roomB ≠ "")
    (hne : roomA ≠ normRoomId roomB) :
    inRoomB (joinRoomB st sid roomB username instrument).1 sid (normRoomId roomB) = true ∧
    inRoomB (joinRoomB st sid roomB username instrument).1 sid roomA = false ∧
    (∀ r, inRoomB (joinRoomB st sid roomB username instrument).1 sid r = true →
      r = normRoomId roomB) ∧
    (∀ m, alookup (joinRoomB st sid roomB username instrument).1.rooms roomA = some m →
      m ≠ []) := by
  have hWF' : ∀ r m, alookup st.rooms r = some m →
      m.any (fun p => p.1 == sid) = true → r = roomA := by
    intro r m hm hany
    have hmem := alookup_mem hm
    have hall := List.all_eq_true.mp hWF (r, m) hmem
    simp only [hany, Bool.not_true, Bool.false_or, hprev, beq_iff_eq,
      Option.some.injEq] at hall
    exact hall.symm
  have hrooms := joinRoomB_rooms st sid roomB username instrument hBne
  rw [hprev] at hrooms
  dsimp only at hrooms
  rw [if_pos hne] at hrooms
  cases hm : alookup st.rooms roomA with
  | none =>
    rw [hm] at hrooms
    dsimp only at hrooms
    exact roomsB_transfer_core _ st.rooms st.rooms sid roomA _ _ hrooms hne hWF'
      (Or.inl hm) (fun r _ => rfl)
  | some pm =>
    rw [hm] at hrooms
    dsimp only at hrooms
    by_cases hd : adel pm sid = []
    · rw [if_pos hd] at hrooms
      exact roomsB_transfer_core _ st.rooms (adel st.rooms roomA) sid roomA _ _
        hrooms hne hWF' (Or.inl (alookup_adel_self_of_nodup hUO))
        (fun r hr => alookup_adel_ne _ _ _ hr)
    · rw [if_neg hd] at hrooms
      exact roomsB_transfer_core _ st.rooms (aset st.rooms roomA (adel pm sid))
        sid roomA _ _ hrooms hne hWF'
        (Or.inr ⟨adel pm sid, alookup_aset_self _ _ _,
          any_key_adel_of_nodup (hUI (roomA, pm) (alookup_mem hm)), hd⟩)
        (fun r hr => alookup_aset_ne _ _ _ _ hr)

/-- C2 witness: the amended theorem applied to a socket moving from room
`"A"` to room `"B"`. -/
theorem C2_witness :
    (WFB stW2 "S1" = true ∧ (stW2.rooms.map Prod.fst).Nodup ∧
      (∀ rm ∈ stW2.rooms, (rm.2.map Prod.fst).Nodup) ∧
      (sdataB stW2 "S1").roomId = some "A" ∧ ("b" : String) ≠ "" ∧
      ("A" : String) ≠ normRoomId "b") ∧
    (inRoomB (joinRoomB stW2 "S1" "b" "Bo" "sax").1 "S1" (normRoomId "b") = true ∧
     inRoomB (joinRoomB stW2 "S1" "b" "Bo" "sax").1 "S1" "A" = false ∧
     (∀ r, inRoomB (joinRoomB stW2 "S1" "b" "Bo" "sax").1 "S1" r = true →
       r = normRoomId "b") ∧
     (∀ m, alookup (joinRoomB stW2 "S1" "b" "Bo" "sax").1.rooms "A" = some m →
       m ≠ [])) :=
  ⟨⟨by decide, by decide, by decide, by decide, by decide, by decide⟩,
   C2_room_transfer stW2 "S1" "A" "b" "Bo" "sax" (by decide) (by decide) (by decide)
     (by decide) (by decide) (by decide)⟩

/-! ### String lemmas for the idempotence analysis (C4) -/

theorem isPrefixOf_of_append_cons {pat a t : Str} {x : Char}
    (h : pat.isPrefixOf (a ++ x :: t) = true) (hx : x ∉ pat) :
    pat.isPrefixOf a = true := by
  induction a generalizing pat with
  | nil =>
    cases pat with
    | nil => rfl
    | cons p ps =>
      simp only [List.nil_append, List.isPrefixOf, Bool.and_eq_true, beq_iff_eq] at h
      obtain ⟨rfl, -⟩ := h
      exact absurd (List.mem_cons_self _ _) hx
  | cons a₀ a' ih =>
    cases pat with
    | nil => rfl
    | cons p ps =>
      simp only [List.cons_append, List.isPrefixOf, Bool.and_eq_true] at h ⊢
      exact ⟨h.1, ih h.2 (fun hm => hx (List.mem_cons_of_mem _ hm))⟩

theorem containsStr_append_right {pat b : Str} (a : Str)
    (h : containsStr pat b = true) : containsStr pat (a ++ b) = true := by
  induction a with
  | nil => exact h
  | cons c a' ih =>
    simp only [List.cons_append, containsStr, Bool.or_eq_true]
    exact Or.inr ih

theorem containsStr_of_isPrefixOf {pat s : Str} (h : pat.isPrefixOf s = true) :
    containsStr pat s = true := by
  cases s with
  | nil =>
    cases pat with
    | nil => rfl
    | cons p ps => simp [List.isPrefixOf] at h
  | cons c t => simp [containsStr, h]

theorem containsStr_split {pat a t : Str} {x : Char}
    (h : containsStr pat (a ++ x :: t) = true) (hx : x ∉ pat) (hne : pat ≠ []) :
    containsStr pat a = true ∨ containsStr pat t = true := by
  induction a with
  | nil =>
    simp only [List.nil_append, containsStr, Bool.or_eq_true] at h
    rcases h with h | h
    · cases pat with
      | nil => exact absurd rfl hne
      | cons p ps =>
        simp only [List.isPrefixOf, Bool.and_eq_true, beq_iff_eq] at h
        obtain ⟨rfl, -⟩ := h
        exact absurd (List.mem_cons_self _ _) hx
    · exact Or.inr h
  | cons c a' ih =>
    simp only [List.cons_append, containsStr, Bool.or_eq_true] at h
    rcases h with h | h
    · exact Or.inl (containsStr_of_isPrefixOf
        (isPrefixOf_of_append_cons (a := c :: a') h hx))
    · rcases ih h with h | h
      · refine Or.inl ?_
        simp only [containsStr, Bool.or_eq_true]
        exact Or.inr h
      · exact Or.inr h

theorem isPrefixOf_append_of_isPrefixOf {pat l : Str} (x : Str)
    (h : pat.isPrefixOf l = true) : pat.isPrefixOf (l ++ x) = true :=
  List.isPrefixOf_iff_prefix.mpr
    ((List.isPrefixOf_iff_prefix.mp h).trans (List.prefix_append l x))

theorem addPtime_contains (l : Str) :
    containsStr ("ptime=".toList) (addPtime l) = true := by
  unfold addPtime
  by_cases h : containsStr ("ptime=".toList) l = true
  · rw [if_pos h]
    exact h
  · rw [if_neg h]
    exact containsStr_append_right l (by decide)

theorem addPtime_of_contains {l : Str}
    (h : containsStr ("ptime=".toList) l = true) : addPtime l = l :=
  if_pos h

theorem fmtpPrefix_addPtime {pt l : Str} (h : (fmtpPrefix pt).isPrefixOf l = true) :
    (fmtpPrefix pt).isPrefixOf (addPtime l) = true := by
  unfold addPtime
  split
  · exact h
  · exact isPrefixOf_append_of_isPrefixOf _ h

theorem fixFmtpLines_id {pt : Str} {L : List Str}
    (h : ∀ l ∈ L, (fmtpPrefix pt).isPrefixOf l = false) : fixFmtpLines pt L = L := by
  induction L with
  | nil => rfl
  | cons l ls ih =>
    rw [fixFmtpLines, if_neg (by simp [h l (by simp)]),
      ih (fun x hx => h x (List.mem_cons_of_mem _ hx))]

theorem fixFmtpLines_idem (pt : Str) (L : List Str) :
    fixFmtpLines pt (fixFmtpLines pt L) = fixFmtpLines pt L := by
  induction L with
  | nil => rfl
  | cons l ls ih =>
    by_cases h : (fmtpPrefix pt).isPrefixOf l = true
    · rw [fixFmtpLines, if_pos h, fixFmtpLines, if_pos (fmtpPrefix_addPtime h),
        addPtime_of_contains (addPtime_contains l)]
    · rw [fixFmtpLines, if_neg h, fixFmtpLines, if_neg h, ih]

theorem fixFmtpLines_append_no_prefix {pt : Str} {X : List Str} (Y : List Str)
    (h : ∀ l ∈ X, (fmtpPrefix pt).isPrefixOf l = false) :
    fixFmtpLines pt (X ++ Y) = X ++ fixFmtpLines pt Y := by
  induction X with
  | nil => rfl
  | cons l ls ih =>
    rw [List.cons_append, fixFmtpLines, if_neg (by simp [h l (by simp)]),
      ih (fun x hx => h x (List.mem_cons_of_mem _ hx)), List.cons_append]

